import Mathlib

/-!
# Shallow embedding of `scripts/build.py` (Suffolk Village Signs build script)

Coordinates and distances are rationals (the Python floats are treated as exact
reals).  The great-circle distance function (`geopy.distance.geodesic`, an
external library) is a parameter of every definition that uses it: `distKm`
yields kilometres (used with `MATCH_RADIUS_KM`), `distM` yields metres (used
with `DEDUP_RADIUS_M`).  Capture timestamps are naturals, with `0` playing the
role of `datetime.min` (the sentinel returned by `extract_datetime` when no
EXIF timestamp parses).  Fallible lookups are `Option`; the running minimum of
`nearest_settlement`, initialised to `float("inf")` in the source, is modelled
by an `Option` accumulator that is `none` until the first settlement is
scanned.
-/

namespace VillageSigns

/-- `DEDUP_RADIUS_M = 50` from build.py. -/
def DEDUP_RADIUS_M : ℚ := 50

/-- `MATCH_RADIUS_KM = 1.5` from build.py. -/
def MATCH_RADIUS_KM : ℚ := 3 / 2

/-- `HOME_COORDS = (52.2355, 0.9014)` from build.py. -/
def HOME_COORDS : ℚ × ℚ := (104471 / 2000, 4507 / 5000)

/-- A gazetteer entry, as produced by `fetch_settlements` / `load_settlements`:
`{"name": …, "lat": …, "lon": …, "place": …}`. -/
structure Settlement where
  name : String
  lat : ℚ
  lon : ℚ
  place : String
deriving Repr, DecidableEq

/-- The coordinate pair `(s["lat"], s["lon"])` of a settlement. -/
def Settlement.coords (s : Settlement) : ℚ × ℚ := (s.lat, s.lon)

/-- A photo record, as produced by `load_photos`: file stem (for the output
name), GPS coordinates, and capture timestamp (`0` = `datetime.min`). -/
structure Photo where
  stem : String
  lat : ℚ
  lon : ℚ
  datetime : ℕ
deriving Repr, DecidableEq

/-- The coordinate pair `photo["coords"]`. -/
def Photo.coords (p : Photo) : ℚ × ℚ := (p.lat, p.lon)

/-- The tuple branch of `_to_float`:
`val[0] / val[1] if val[1] != 0 else 0.0`. -/
def to_float (num den : ℤ) : ℚ :=
  if den ≠ 0 then (num : ℚ) / den else 0

/-- `_dms_to_decimal(dms, ref)`: `d + m/60 + s/3600`, negated when
`ref in ("S", "W")`.  The components have already been through `_to_float`. -/
def dms_to_decimal (d m s : ℚ) (ref : String) : ℚ :=
  let dec := d + m / 60 + s / 3600
  if ref = "S" ∨ ref = "W" then -dec else dec

/-- One iteration of the loop body of `nearest_settlement`: starting from
`best, best_dist = None, float("inf")`, replace the accumulator whenever
`d < best_dist` (a `none` accumulator is the infinite initial distance, which
every finite `d` beats). -/
def scanStep (distKm : ℚ × ℚ → ℚ × ℚ → ℚ) (coords : ℚ × ℚ)
    (acc : Option (Settlement × ℚ)) (s : Settlement) : Option (Settlement × ℚ) :=
  match acc with
  | none => some (s, distKm coords s.coords)
  | some (b, bd) =>
      if distKm coords s.coords < bd then some (s, distKm coords s.coords)
      else some (b, bd)

/-- `nearest_settlement(coords, settlements)`: linear scan tracking the
minimum distance, then return the best settlement iff its distance is
`≤ MATCH_RADIUS_KM`; otherwise (and in particular when the scan never beat
the initial infinity) return `(None, None)`. -/
def nearest_settlement (distKm : ℚ × ℚ → ℚ × ℚ → ℚ) (coords : ℚ × ℚ)
    (settlements : List Settlement) : Option (Settlement × ℚ) :=
  match settlements.foldl (scanStep distKm coords) none with
  | none => none
  | some (b, bd) => if bd ≤ MATCH_RADIUS_KM then some (b, bd) else none

/-- A cluster built by `deduplicate`: its first member (the spatial
representative used for membership tests) together with the later members, so
clusters are non-empty by construction. -/
abbrev Cluster : Type := Photo × List Photo

/-- The full member list `cluster[0] :: rest` of a cluster. -/
def Cluster.members (c : Cluster) : List Photo := c.1 :: c.2

/-- The inner loop of `deduplicate`: try the existing clusters in creation
order, appending the photo to the first one whose FIRST member is within
`DEDUP_RADIUS_M`, and otherwise start a new cluster at the end. -/
def insertPhoto (distM : ℚ × ℚ → ℚ × ℚ → ℚ) (p : Photo) :
    List Cluster → List Cluster
  | [] => [(p, [])]
  | (rep, rest) :: cs =>
      if distM p.coords rep.coords ≤ DEDUP_RADIUS_M then (rep, rest ++ [p]) :: cs
      else (rep, rest) :: insertPhoto distM p cs

/-- The cluster list obtained by running the outer loop of `deduplicate`
over the photos in input order. -/
def clustersOf (distM : ℚ × ℚ → ℚ × ℚ → ℚ) (photos : List Photo) : List Cluster :=
  photos.foldl (fun cs p => insertPhoto distM p cs) []

/-- One step of Python's `max(c, key=lambda p: p["datetime"])`: the running
maximum is replaced only when the candidate is strictly later, so the first
maximal element wins ties. -/
def maxStep (best p : Photo) : Photo :=
  if best.datetime < p.datetime then p else best

/-- `max(c, key=lambda p: p["datetime"])` over a non-empty cluster. -/
def maxByDatetime (first : Photo) (rest : List Photo) : Photo :=
  rest.foldl maxStep first

/-- `deduplicate(photos)`: cluster, then keep the most recent member of each
cluster, in cluster-creation order. -/
def deduplicate (distM : ℚ × ℚ → ℚ × ℚ → ℚ) (photos : List Photo) : List Photo :=
  (clustersOf distM photos).map fun c => maxByDatetime c.1 c.2

/-- An entry of the `visited` output list (step 3 of `build`). -/
structure VisitedEntry where
  name : String
  lat : ℚ
  lon : ℚ
  photo : String
  date : Option ℕ
deriving Repr, DecidableEq

/-- An entry of the `unvisited` output list (step 4 of `build`). -/
structure UnvisitedEntry where
  name : String
  lat : ℚ
  lon : ℚ
  distance_km : ℚ
deriving Repr, DecidableEq

/-- The mutable state of the matching loop in `build`: the `visited_names`
set (modelled as its insertion-ordered list of elements) and the `visited`
output list. -/
structure MatchState where
  visitedNames : List String
  visited : List VisitedEntry
deriving Repr, DecidableEq

/-- Round-half-to-even at integer precision, Python's `round` tie rule. -/
def roundHalfEven (q : ℚ) : ℤ :=
  if q - ⌊q⌋ < 1 / 2 then ⌊q⌋
  else if 1 / 2 < q - ⌊q⌋ then ⌊q⌋ + 1
  else if ⌊q⌋ % 2 = 0 then ⌊q⌋ else ⌊q⌋ + 1

/-- Python's `round(d, 1)`: round to one decimal place. -/
def round1 (q : ℚ) : ℚ := (roundHalfEven (10 * q) : ℚ) / 10

/-- The body of the matching loop in `build` for one photo: no match within
radius ⇒ state unchanged (photo dropped); matched settlement already claimed
⇒ state unchanged (photo dropped); otherwise claim the settlement and emit a
`VisitedEntry` carrying the PHOTO's coordinates, the derived output photo
path, and the date string (`None` when the timestamp is the sentinel). -/
def matchStep (distKm : ℚ × ℚ → ℚ × ℚ → ℚ) (settlements : List Settlement)
    (st : MatchState) (photo : Photo) : MatchState :=
  match nearest_settlement distKm photo.coords settlements with
  | none => st
  | some (s, _) =>
      if s.name ∈ st.visitedNames then st
      else
        { visitedNames := st.visitedNames ++ [s.name]
          visited := st.visited ++
            [{ name := s.name
               lat := photo.lat
               lon := photo.lon
               photo := "photos/" ++ photo.stem ++ ".jpg"
               date := if photo.datetime ≠ 0 then some photo.datetime else none }] }

/-- Step 4 of `build`: every settlement whose name was not claimed becomes an
`UnvisitedEntry` with its own gazetteer coordinates and the rounded distance
from `HOME_COORDS`. -/
def buildUnvisited (distKm : ℚ × ℚ → ℚ × ℚ → ℚ) (visitedNames : List String)
    (settlements : List Settlement) : List UnvisitedEntry :=
  (settlements.filter fun s => s.name ∉ visitedNames).map fun s =>
    { name := s.name
      lat := s.lat
      lon := s.lon
      distance_km := round1 (distKm HOME_COORDS s.coords) }

/-- The output dataset of `build` (the `generated` date, pure I/O, is
omitted). -/
structure BuildResult where
  visited : List VisitedEntry
  unvisited : List UnvisitedEntry
  statsVisited : ℕ
  statsTotal : ℕ
deriving Repr, DecidableEq

/-- Steps 3–5 of `build(…)`: run the matching loop over the (already
deduplicated) photos, derive the unvisited list, and fill in the stats
(`"visited": len(visited)`, `"total": len(visited) + len(unvisited)`). -/
def build (distKm : ℚ × ℚ → ℚ × ℚ → ℚ) (photos : List Photo)
    (settlements : List Settlement) : BuildResult :=
  let st := photos.foldl (matchStep distKm settlements) ⟨[], []⟩
  let unvisited := buildUnvisited distKm st.visitedNames settlements
  { visited := st.visited
    unvisited := unvisited
    statsVisited := st.visited.length
    statsTotal := st.visited.length + unvisited.length }

/-- The row order of `unvisited.csv`:
`sorted(unvisited, key=lambda s: s["distance_km"])` (a stable sort by the
rounded distance). -/
def sortedUnvisited (r : BuildResult) : List UnvisitedEntry :=
  r.unvisited.mergeSort fun a b => decide (a.distance_km ≤ b.distance_km)

/-- A concrete stand-in distance function used only to evaluate the model at
specific inputs (squared euclidean distance; any function of this type would
do, since the pipeline is parametric in the distance). -/
def sqDist (p q : ℚ × ℚ) : ℚ := (p.1 - q.1) ^ 2 + (p.2 - q.2) ^ 2

/-- The invariant maintained by the matching loop of `build`: the visited
entries carry exactly the claimed names in claim order, the claimed names are
pairwise distinct, and every claimed name is a gazetteer name. -/
def stateInv (settlements : List Settlement) (st : MatchState) : Prop :=
  st.visited.map VisitedEntry.name = st.visitedNames ∧
  st.visitedNames.Nodup ∧
  ∀ n ∈ st.visitedNames, n ∈ settlements.map Settlement.name

/-!
## Helper lemmas

First, a characterisation of the scanning loop of `nearest_settlement` once
the accumulator holds a candidate: the final candidate realises the minimum
of the initial distance and all scanned distances, and when it differs from
the initial candidate it is the first list element realising that minimum.
-/

theorem foldl_scanStep_char (distKm : ℚ × ℚ → ℚ × ℚ → ℚ) (coords : ℚ × ℚ)
    (l : List Settlement) :
    ∀ (b : Settlement) (bd : ℚ),
      ∃ b' bd', l.foldl (scanStep distKm coords) (some (b, bd)) = some (b', bd') ∧
        bd' ≤ bd ∧ (∀ s ∈ l, bd' ≤ distKm coords s.coords) ∧
        ((b' = b ∧ bd' = bd) ∨
          ∃ l₁ l₂, l = l₁ ++ b' :: l₂ ∧ bd' = distKm coords b'.coords ∧ bd' < bd ∧
            ∀ s ∈ l₁, bd' < distKm coords s.coords) := by
  induction l with
  | nil =>
    intro b bd
    exact ⟨b, bd, rfl, le_refl _, by simp, Or.inl ⟨rfl, rfl⟩⟩
  | cons s l ih =>
    intro b bd
    rw [List.foldl_cons]
    by_cases h : distKm coords s.coords < bd
    · have hstep : scanStep distKm coords (some (b, bd)) s
          = some (s, distKm coords s.coords) := by
        simp [scanStep, if_pos h]
      rw [hstep]
      obtain ⟨b', bd', heq, hle, hall, hdisj⟩ := ih s (distKm coords s.coords)
      refine ⟨b', bd', heq, hle.trans h.le, ?_, ?_⟩
      · intro t ht
        rcases List.mem_cons.1 ht with rfl | ht
        · exact hle
        · exact hall t ht
      · rcases hdisj with ⟨rfl, hbd'⟩ | ⟨l₁, l₂, hsplit, hbd', hlt, hall₁⟩
        · refine Or.inr ⟨[], l, by simp, hbd', hbd' ▸ h, by simp⟩
        · refine Or.inr ⟨s :: l₁, l₂, by rw [hsplit, List.cons_append], hbd',
            hlt.trans h, ?_⟩
          intro t ht
          rcases List.mem_cons.1 ht with rfl | ht
          · exact hlt
          · exact hall₁ t ht
    · have hstep : scanStep distKm coords (some (b, bd)) s = some (b, bd) := by
        simp [scanStep, if_neg h]
      rw [hstep]
      obtain ⟨b', bd', heq, hle, hall, hdisj⟩ := ih b bd
      refine ⟨b', bd', heq, hle, ?_, ?_⟩
      · intro t ht
        rcases List.mem_cons.1 ht with rfl | ht
        · exact hle.trans (not_lt.1 h)
        · exact hall t ht
      · rcases hdisj with ⟨rfl, hbd'⟩ | ⟨l₁, l₂, hsplit, hbd', hlt, hall₁⟩
        · exact Or.inl ⟨rfl, hbd'⟩
        · refine Or.inr ⟨s :: l₁, l₂, by rw [hsplit, List.cons_append], hbd',
            hlt, ?_⟩
          intro t ht
          rcases List.mem_cons.1 ht with rfl | ht
          · exact hlt.trans_le (not_lt.1 h)
          · exact hall₁ t ht

/-- On a non-empty gazetteer the scan yields the first settlement realising
the minimum distance, together with that minimum. -/
theorem scan_cons_char (distKm : ℚ × ℚ → ℚ × ℚ → ℚ) (coords : ℚ × ℚ)
    (s₀ : Settlement) (rest : List Settlement) :
    ∃ b bd, (s₀ :: rest).foldl (scanStep distKm coords) none = some (b, bd) ∧
      b ∈ s₀ :: rest ∧ bd = distKm coords b.coords ∧
      (∀ s ∈ s₀ :: rest, bd ≤ distKm coords s.coords) ∧
      ∃ l₁ l₂, s₀ :: rest = l₁ ++ b :: l₂ ∧ ∀ s ∈ l₁, bd < distKm coords s.coords := by
  rw [List.foldl_cons]
  have hstep : scanStep distKm coords none s₀ = some (s₀, distKm coords s₀.coords) := rfl
  rw [hstep]
  obtain ⟨b, bd, heq, hle, hall, hdisj⟩ :=
    foldl_scanStep_char distKm coords rest s₀ (distKm coords s₀.coords)
  rcases hdisj with ⟨rfl, hbd⟩ | ⟨l₁, l₂, hsplit, hbd, hlt, hall₁⟩
  · refine ⟨b, bd, heq, List.mem_cons_self _ _, hbd, ?_, [], rest, by simp, by simp⟩
    intro t ht
    rcases List.mem_cons.1 ht with rfl | ht
    · exact le_of_eq hbd
    · exact hall t ht
  · refine ⟨b, bd, heq, ?_, hbd, ?_, s₀ :: l₁, l₂, by rw [hsplit, List.cons_append], ?_⟩
    · exact List.mem_cons_of_mem _ (hsplit ▸ List.mem_append_right l₁ (List.mem_cons_self _ _))
    · intro t ht
      rcases List.mem_cons.1 ht with rfl | ht
      · exact hle
      · exact hall t ht
    · intro t ht
      rcases List.mem_cons.1 ht with rfl | ht
      · exact hlt
      · exact hall₁ t ht

/-- Reduce `nearest_settlement` once the result of its scanning loop is
known. -/
theorem nearest_eq_of_scan (distKm : ℚ × ℚ → ℚ × ℚ → ℚ) (coords : ℚ × ℚ)
    (gs : List Settlement) (b' : Settlement) (bd' : ℚ)
    (heq : gs.foldl (scanStep distKm coords) none = some (b', bd')) :
    nearest_settlement distKm coords gs =
      if bd' ≤ MATCH_RADIUS_KM then some (b', bd') else none := by
  rw [nearest_settlement, heq]

/-- What a successful `nearest_settlement` lookup means: the returned
settlement belongs to the gazetteer, the returned distance is its distance,
lies within the match radius and is minimal, and every strictly earlier
settlement is strictly farther. -/
theorem nearest_settlement_eq_some (distKm : ℚ × ℚ → ℚ × ℚ → ℚ) (coords : ℚ × ℚ)
    (gs : List Settlement) (b : Settlement) (bd : ℚ)
    (h : nearest_settlement distKm coords gs = some (b, bd)) :
    b ∈ gs ∧ bd = distKm coords b.coords ∧ bd ≤ MATCH_RADIUS_KM ∧
    (∀ s ∈ gs, bd ≤ distKm coords s.coords) ∧
    ∃ l₁ l₂, gs = l₁ ++ b :: l₂ ∧ ∀ s ∈ l₁, bd < distKm coords s.coords := by
  match gs with
  | [] => simp [nearest_settlement] at h
  | s₀ :: rest =>
    obtain ⟨b', bd', heq, hmem, hbd, hall, hfirst⟩ := scan_cons_char distKm coords s₀ rest
    rw [nearest_eq_of_scan distKm coords _ b' bd' heq] at h
    by_cases hr : bd' ≤ MATCH_RADIUS_KM
    · rw [if_pos hr] at h
      obtain ⟨h1, h2⟩ := Prod.mk.injEq .. ▸ Option.some.injEq .. ▸ h
      subst h1
      subst h2
      exact ⟨hmem, hbd, hr, hall, hfirst⟩
    · rw [if_neg hr] at h
      exact absurd h (by simp)

/-- If some settlement of the gazetteer lies within the match radius, the
lookup succeeds. -/
theorem nearest_settlement_isSome (distKm : ℚ × ℚ → ℚ × ℚ → ℚ) (coords : ℚ × ℚ)
    (gs : List Settlement) (s : Settlement) (hs : s ∈ gs)
    (hle : distKm coords s.coords ≤ MATCH_RADIUS_KM) :
    ∃ b bd, nearest_settlement distKm coords gs = some (b, bd) := by
  match gs with
  | [] => exact absurd hs (List.not_mem_nil s)
  | s₀ :: rest =>
    obtain ⟨b', bd', heq, hmem, hbd, hall, hfirst⟩ := scan_cons_char distKm coords s₀ rest
    refine ⟨b', bd', ?_⟩
    rw [nearest_eq_of_scan distKm coords _ b' bd' heq, if_pos ((hall s hs).trans hle)]

/-- If every settlement is strictly beyond the match radius (in particular
when the gazetteer is empty), the lookup returns `none`. -/
theorem nearest_settlement_eq_none (distKm : ℚ × ℚ → ℚ × ℚ → ℚ) (coords : ℚ × ℚ)
    (gs : List Settlement)
    (h : ∀ s ∈ gs, ¬distKm coords s.coords ≤ MATCH_RADIUS_KM) :
    nearest_settlement distKm coords gs = none := by
  match gs with
  | [] => rfl
  | s₀ :: rest =>
    obtain ⟨b', bd', heq, hmem, hbd, hall, hfirst⟩ := scan_cons_char distKm coords s₀ rest
    rw [nearest_eq_of_scan distKm coords _ b' bd' heq, if_neg (hbd ▸ h b' hmem)]

/-- Characterisation of the running maximum of `maxStep` (Python's `max`
with a key): the result dominates the seed and every scanned element, and is
either the seed itself or the first scanned element strictly beating the
seed and everything before it. -/
theorem foldl_maxStep_char (l : List Photo) :
    ∀ b : Photo,
      b.datetime ≤ (l.foldl maxStep b).datetime ∧
      (∀ x ∈ l, x.datetime ≤ (l.foldl maxStep b).datetime) ∧
      (l.foldl maxStep b = b ∨
        ∃ l₁ l₂, l = l₁ ++ l.foldl maxStep b :: l₂ ∧
          b.datetime < (l.foldl maxStep b).datetime ∧
          ∀ x ∈ l₁, x.datetime < (l.foldl maxStep b).datetime) := by
  induction l with
  | nil => intro b; exact ⟨le_refl _, by simp, Or.inl rfl⟩
  | cons p l ih =>
    intro b
    rw [List.foldl_cons]
    by_cases h : b.datetime < p.datetime
    · rw [show maxStep b p = p from if_pos h]
      obtain ⟨hle, hall, hdisj⟩ := ih p
      refine ⟨(h.trans_le hle).le, ?_, ?_⟩
      · intro x hx
        rcases List.mem_cons.1 hx with rfl | hx
        · exact hle
        · exact hall x hx
      · rcases hdisj with heq | ⟨l₁, l₂, hsplit, hlt, hall₁⟩
        · exact Or.inr ⟨[], l, by rw [heq]; rfl, by rw [heq]; exact h, by simp⟩
        · refine Or.inr ⟨p :: l₁, l₂, by rw [List.cons_append, ← hsplit], h.trans hlt, ?_⟩
          intro x hx
          rcases List.mem_cons.1 hx with rfl | hx
          · exact hlt
          · exact hall₁ x hx
    · rw [show maxStep b p = b from if_neg h]
      obtain ⟨hle, hall, hdisj⟩ := ih b
      refine ⟨hle, ?_, ?_⟩
      · intro x hx
        rcases List.mem_cons.1 hx with rfl | hx
        · exact (not_lt.1 h).trans hle
        · exact hall x hx
      · rcases hdisj with heq | ⟨l₁, l₂, hsplit, hlt, hall₁⟩
        · exact Or.inl heq
        · refine Or.inr ⟨p :: l₁, l₂, by rw [List.cons_append, ← hsplit], hlt, ?_⟩
          intro x hx
          rcases List.mem_cons.1 hx with rfl | hx
          · exact (not_lt.1 h).trans_lt hlt
          · exact hall₁ x hx

/-- The chosen representative of a non-empty cluster: a member, of maximal
timestamp, and the first member attaining that maximum. -/
theorem maxByDatetime_char (first : Photo) (rest : List Photo) :
    maxByDatetime first rest ∈ first :: rest ∧
    (∀ x ∈ first :: rest, x.datetime ≤ (maxByDatetime first rest).datetime) ∧
    ∃ l₁ l₂, first :: rest = l₁ ++ maxByDatetime first rest :: l₂ ∧
      ∀ x ∈ l₁, x.datetime < (maxByDatetime first rest).datetime := by
  obtain ⟨hle, hall, hdisj⟩ := foldl_maxStep_char rest first
  rw [maxByDatetime]
  rcases hdisj with heq | ⟨l₁, l₂, hsplit, hlt, hall₁⟩
  · rw [heq]
    refine ⟨List.mem_cons_self _ _, ?_, [], rest, rfl, by simp⟩
    intro x hx
    rcases List.mem_cons.1 hx with rfl | hx
    · exact le_refl _
    · exact heq ▸ hall x hx
  · have hmem2 : ∀ r : Photo, rest = l₁ ++ r :: l₂ → r ∈ first :: rest := by
      intro r hr
      rw [hr]
      exact List.mem_cons_of_mem _ (List.mem_append_right l₁ (List.mem_cons_self _ _))
    refine ⟨hmem2 _ hsplit, ?_, first :: l₁, l₂, by rw [List.cons_append, ← hsplit], ?_⟩
    · intro x hx
      rcases List.mem_cons.1 hx with rfl | hx
      · exact hle
      · exact hall x hx
    · intro x hx
      rcases List.mem_cons.1 hx with rfl | hx
      · exact hlt
      · exact hall₁ x hx

/-- When no existing cluster's first member is within the dedup radius, the
photo starts a new cluster at the end of the list. -/
theorem insertPhoto_no_fit (distM : ℚ × ℚ → ℚ × ℚ → ℚ) (p : Photo)
    (cs : List Cluster) (h : ∀ c ∈ cs, ¬distM p.coords c.1.coords ≤ DEDUP_RADIUS_M) :
    insertPhoto distM p cs = cs ++ [(p, [])] := by
  induction cs with
  | nil => rfl
  | cons c cs ih =>
    obtain ⟨rep, rest⟩ := c
    simp only [insertPhoto]
    rw [if_neg (h (rep, rest) (List.mem_cons_self _ _)),
      ih fun c hc => h c (List.mem_cons_of_mem _ hc), List.cons_append]

/-- The photo joins the FIRST cluster (in creation order) whose first member
is within the dedup radius: it is appended at the end of that cluster's
member list, the representative and all other clusters are untouched. -/
theorem insertPhoto_first_fit (distM : ℚ × ℚ → ℚ × ℚ → ℚ) (p : Photo)
    (cs₁ : List Cluster) (rep : Photo) (rest : List Photo) (cs₂ : List Cluster)
    (h₁ : ∀ c ∈ cs₁, ¬distM p.coords c.1.coords ≤ DEDUP_RADIUS_M)
    (h₂ : distM p.coords rep.coords ≤ DEDUP_RADIUS_M) :
    insertPhoto distM p (cs₁ ++ (rep, rest) :: cs₂)
      = cs₁ ++ (rep, rest ++ [p]) :: cs₂ := by
  induction cs₁ with
  | nil =>
    rw [List.nil_append, List.nil_append]
    simp only [insertPhoto]
    rw [if_pos h₂]
  | cons c cs₁ ih =>
    obtain ⟨r, rs⟩ := c
    rw [List.cons_append]
    simp only [insertPhoto]
    rw [if_neg (h₁ (r, rs) (List.mem_cons_self _ _)),
      ih fun c hc => h₁ c (List.mem_cons_of_mem _ hc), List.cons_append]

/-- Processing one more photo is `insertPhoto` on the clusters accumulated
so far: the outer loop of `deduplicate` in equational form. -/
theorem clustersOf_append_one (distM : ℚ × ℚ → ℚ × ℚ → ℚ) (photos : List Photo)
    (p : Photo) :
    clustersOf distM (photos ++ [p]) = insertPhoto distM p (clustersOf distM photos) := by
  rw [clustersOf, clustersOf, List.foldl_append, List.foldl_cons, List.foldl_nil]

/-- The dedup output is, pointwise in cluster-creation order, a member of the
corresponding cluster (hence exactly one representative per cluster). -/
theorem deduplicate_forall₂ (distM : ℚ × ℚ → ℚ × ℚ → ℚ) (photos : List Photo) :
    List.Forall₂ (fun r c => r ∈ Cluster.members c)
      (deduplicate distM photos) (clustersOf distM photos) := by
  rw [deduplicate]
  induction clustersOf distM photos with
  | nil => exact List.Forall₂.nil
  | cons c cs ih =>
    exact List.Forall₂.cons (maxByDatetime_char c.1 c.2).1 ih

/-- The matching loop of `build` preserves `stateInv`. -/
theorem matchStep_inv (distKm : ℚ × ℚ → ℚ × ℚ → ℚ) (gs : List Settlement)
    (st : MatchState) (p : Photo) (h : stateInv gs st) :
    stateInv gs (matchStep distKm gs st p) := by
  rw [matchStep]
  cases heq : nearest_settlement distKm p.coords gs with
  | none => exact h
  | some sd =>
    obtain ⟨s, d⟩ := sd
    by_cases hmem : s.name ∈ st.visitedNames
    · simp only [if_pos hmem]
      exact h
    · simp only [if_neg hmem]
      obtain ⟨hmap, hnd, hsub⟩ := h
      refine ⟨by simp [hmap], ?_, ?_⟩
      · simp [List.nodup_append, hnd, hmem]
      · intro n hn
        rcases List.mem_append.1 hn with h1 | h1
        · exact hsub n h1
        · rw [List.mem_singleton.1 h1]
          exact List.mem_map_of_mem Settlement.name
            (nearest_settlement_eq_some distKm p.coords gs s d heq).1

/-- `stateInv` is preserved by the whole matching loop. -/
theorem foldl_matchStep_inv (distKm : ℚ × ℚ → ℚ × ℚ → ℚ) (gs : List Settlement)
    (photos : List Photo) :
    ∀ st : MatchState, stateInv gs st →
      stateInv gs (photos.foldl (matchStep distKm gs) st) := by
  induction photos with
  | nil => intro st h; exact h
  | cons p ps ih =>
    intro st h
    rw [List.foldl_cons]
    exact ih _ (matchStep_inv distKm gs st p h)

/-- The final state of the matching loop of `build` satisfies `stateInv`. -/
theorem build_state_inv (distKm : ℚ × ℚ → ℚ × ℚ → ℚ) (gs : List Settlement)
    (photos : List Photo) :
    stateInv gs (photos.foldl (matchStep distKm gs) ⟨[], []⟩) :=
  foldl_matchStep_inv distKm gs photos ⟨[], []⟩ ⟨rfl, List.nodup_nil, by simp⟩

/-- Counting: in a duplicate-free list, the elements belonging to a
duplicate-free sublist-of-members `V` are exactly `V.length` many. -/
theorem length_filter_mem (L V : List String) (hL : L.Nodup) (hV : V.Nodup)
    (hsub : ∀ v ∈ V, v ∈ L) :
    (L.filter fun x => x ∈ V).length = V.length := by
  have hperm : List.Perm (L.filter fun x => x ∈ V) V := by
    apply (List.perm_ext_iff_of_nodup (hL.filter _) hV).2
    intro a
    simp only [List.mem_filter, decide_eq_true_eq]
    exact ⟨fun h2 => h2.2, fun h2 => ⟨hsub a h2, h2⟩⟩
  exact hperm.length_eq

/-- Splitting a list by a boolean predicate preserves total length. -/
theorem length_filter_split (l : List Settlement) (p : Settlement → Bool) :
    (l.filter p).length + (l.filter fun s => !p s).length = l.length := by
  induction l with
  | nil => rfl
  | cons a l ih => by_cases h : p a <;> simp [h, ← ih] <;> omega

/-- Filtering settlements by a predicate on names matches filtering the name
list. -/
theorem filter_name_length (gs : List Settlement) (V : List String) :
    (gs.filter fun s => s.name ∈ V).length
      = ((gs.map Settlement.name).filter fun n => n ∈ V).length := by
  induction gs with
  | nil => rfl
  | cons s l ih => by_cases h : s.name ∈ V <;> simp [h, ih]

/-- Membership in the unvisited list built by step 4 of `build`. -/
theorem mem_buildUnvisited (distKm : ℚ × ℚ → ℚ × ℚ → ℚ) (V : List String)
    (gs : List Settlement) (u : UnvisitedEntry) :
    u ∈ buildUnvisited distKm V gs ↔
      ∃ s, s ∈ gs ∧ s.name ∉ V ∧
        u = ⟨s.name, s.lat, s.lon, round1 (distKm HOME_COORDS s.coords)⟩ := by
  rw [buildUnvisited]
  simp only [List.mem_map, List.mem_filter, decide_eq_true_eq]
  constructor
  · rintro ⟨s, ⟨hs, hns⟩, rfl⟩
    exact ⟨s, hs, hns, rfl⟩
  · rintro ⟨s, hs, hns, rfl⟩
    exact ⟨s, ⟨hs, hns⟩, rfl⟩

/-- The names in the unvisited list are the gazetteer names not claimed. -/
theorem mem_name_buildUnvisited (distKm : ℚ × ℚ → ℚ × ℚ → ℚ) (V : List String)
    (gs : List Settlement) (n : String) :
    n ∈ (buildUnvisited distKm V gs).map UnvisitedEntry.name ↔
      ∃ s, s ∈ gs ∧ s.name = n ∧ n ∉ V := by
  simp only [List.mem_map]
  constructor
  · rintro ⟨u, hu, rfl⟩
    obtain ⟨s, hs, hns, rfl⟩ := (mem_buildUnvisited distKm V gs u).1 hu
    exact ⟨s, hs, rfl, hns⟩
  · rintro ⟨s, hs, rfl, hn⟩
    exact ⟨⟨s.name, s.lat, s.lon, round1 (distKm HOME_COORDS s.coords)⟩,
      (mem_buildUnvisited distKm V gs _).2 ⟨s, hs, hn, rfl⟩, rfl⟩

/-- `matchStep` equation: no match within radius, the photo is dropped. -/
theorem matchStep_eq_none (distKm : ℚ × ℚ → ℚ × ℚ → ℚ) (gs : List Settlement)
    (st : MatchState) (p : Photo)
    (hd : nearest_settlement distKm p.coords gs = none) :
    matchStep distKm gs st p = st := by
  rw [matchStep, hd]

/-- `matchStep` equation: the matched settlement is already claimed, the
photo is dropped and the state is unchanged. -/
theorem matchStep_eq_dup (distKm : ℚ × ℚ → ℚ × ℚ → ℚ) (gs : List Settlement)
    (st : MatchState) (p : Photo) (s : Settlement) (d : ℚ)
    (hd : nearest_settlement distKm p.coords gs = some (s, d))
    (hmem : s.name ∈ st.visitedNames) :
    matchStep distKm gs st p = st := by
  rw [matchStep, hd]
  simp only [if_pos hmem]

/-- `matchStep` equation: a fresh match claims the settlement and emits a
`VisitedEntry` built from the PHOTO's coordinates. -/
theorem matchStep_eq_new (distKm : ℚ × ℚ → ℚ × ℚ → ℚ) (gs : List Settlement)
    (st : MatchState) (p : Photo) (s : Settlement) (d : ℚ)
    (hd : nearest_settlement distKm p.coords gs = some (s, d))
    (hmem : s.name ∉ st.visitedNames) :
    matchStep distKm gs st p =
      ⟨st.visitedNames ++ [s.name],
       st.visited ++ [⟨s.name, p.lat, p.lon, "photos/" ++ p.stem ++ ".jpg",
         if p.datetime ≠ 0 then some p.datetime else none⟩]⟩ := by
  rw [matchStep, hd]
  simp only [if_neg hmem]

/-- The `visited` field of the build output is the loop's final `visited`. -/
theorem build_visited_eq (distKm : ℚ × ℚ → ℚ × ℚ → ℚ) (photos : List Photo)
    (gs : List Settlement) :
    (build distKm photos gs).visited
      = (photos.foldl (matchStep distKm gs) ⟨[], []⟩).visited := rfl

/-- The `unvisited` field of the build output. -/
theorem build_unvisited_eq (distKm : ℚ × ℚ → ℚ × ℚ → ℚ) (photos : List Photo)
    (gs : List Settlement) :
    (build distKm photos gs).unvisited
      = buildUnvisited distKm
          (photos.foldl (matchStep distKm gs) ⟨[], []⟩).visitedNames gs := rfl

/-!
## Claim theorems
-/

/-- C1 (amended: the gazetteer's settlement names are assumed pairwise
distinct). For every such gazetteer and every photo set, the build output
partitions the gazetteer: `len(visited) + len(unvisited)` equals the
gazetteer size, the settlement names in the visited and unvisited lists are
disjoint, their union is the full gazetteer name set, and
`stats.visited + len(unvisited) = stats.total`. -/
theorem build_partition (distKm : ℚ × ℚ → ℚ × ℚ → ℚ) (photos : List Photo)
    (settlements : List Settlement)
    (hnodup : (settlements.map Settlement.name).Nodup) :
    (build distKm photos settlements).visited.length
        + (build distKm photos settlements).unvisited.length
      = settlements.length ∧
    (∀ n, ¬(n ∈ (build distKm photos settlements).visited.map VisitedEntry.name ∧
            n ∈ (build distKm photos settlements).unvisited.map UnvisitedEntry.name)) ∧
    (∀ n, (n ∈ (build distKm photos settlements).visited.map VisitedEntry.name ∨
           n ∈ (build distKm photos settlements).unvisited.map UnvisitedEntry.name) ↔
          n ∈ settlements.map Settlement.name) ∧
    (build distKm photos settlements).statsVisited
        + (build distKm photos settlements).unvisited.length
      = (build distKm photos settlements).statsTotal := by
  obtain ⟨hmap, hnd, hsub⟩ := build_state_inv distKm settlements photos
  have hvisname : ∀ n,
      n ∈ (build distKm photos settlements).visited.map VisitedEntry.name ↔
        n ∈ (photos.foldl (matchStep distKm settlements) ⟨[], []⟩).visitedNames := by
    rw [build_visited_eq, hmap]
    exact fun n => Iff.rfl
  have hunvname : ∀ n,
      n ∈ (build distKm photos settlements).unvisited.map UnvisitedEntry.name ↔
        ∃ s, s ∈ settlements ∧ s.name = n ∧
          n ∉ (photos.foldl (matchStep distKm settlements) ⟨[], []⟩).visitedNames := by
    intro n
    rw [build_unvisited_eq]
    exact mem_name_buildUnvisited distKm _ settlements n
  refine ⟨?_, ?_, ?_, rfl⟩
  · have hlen_vis : (build distKm photos settlements).visited.length
        = (photos.foldl (matchStep distKm settlements) ⟨[], []⟩).visitedNames.length := by
      rw [build_visited_eq, ← hmap, List.length_map]
    have h1 : (settlements.filter fun s =>
          s.name ∈ (photos.foldl (matchStep distKm settlements) ⟨[], []⟩).visitedNames).length
        = (photos.foldl (matchStep distKm settlements) ⟨[], []⟩).visitedNames.length := by
      rw [filter_name_length]
      exact length_filter_mem _ _ hnodup hnd hsub
    have h2 : (build distKm photos settlements).unvisited.length
        = (settlements.filter fun s =>
            !decide (s.name ∈
              (photos.foldl (matchStep distKm settlements) ⟨[], []⟩).visitedNames)).length := by
      rw [build_unvisited_eq, buildUnvisited, List.length_map]
      congr 1
      apply List.filter_congr
      intro s _
      exact decide_not
    rw [hlen_vis, h2, ← h1]
    exact length_filter_split settlements _
  · intro n ⟨h1, h2⟩
    obtain ⟨s, _, rfl, hn⟩ := (hunvname n).1 h2
    exact hn ((hvisname s.name).1 h1)
  · intro n
    constructor
    · rintro (h | h)
      · exact hsub n ((hvisname n).1 h)
      · obtain ⟨s, hs, rfl, _⟩ := (hunvname n).1 h
        exact List.mem_map_of_mem Settlement.name hs
    · intro h
      obtain ⟨s, hs, rfl⟩ := List.mem_map.1 h
      by_cases hm : s.name ∈ (photos.foldl (matchStep distKm settlements) ⟨[], []⟩).visitedNames
      · exact Or.inl ((hvisname s.name).2 hm)
      · exact Or.inr ((hunvname s.name).2 ⟨s, hs, rfl, hm⟩)

/-- C1 counterexample: with a gazetteer of size 2 whose settlements share the
name "A" and one photo at their shared location, the build output has 1
visited and 0 unvisited entries, so `len(visited) + len(unvisited)` is 1, not
the gazetteer size 2: the partition claim is false for arbitrary gazetteers. -/
theorem build_partition_counterexample :
    ¬((build sqDist [⟨"p1", 0, 0, 5⟩]
          [⟨"A", 0, 0, "village"⟩, ⟨"A", 0, 0, "village"⟩]).visited.length
        + (build sqDist [⟨"p1", 0, 0, 5⟩]
            [⟨"A", 0, 0, "village"⟩, ⟨"A", 0, 0, "village"⟩]).unvisited.length
      = ([⟨"A", 0, 0, "village"⟩, ⟨"A", 0, 0, "village"⟩] : List Settlement).length) := by
  norm_num [build, matchStep, nearest_settlement, scanStep, sqDist, Photo.coords,
    Settlement.coords, MATCH_RADIUS_KM, buildUnvisited]

/-- C1 witness: the amended partition statement applied to a concrete
duplicate-free gazetteer and photo set. -/
theorem build_partition_witness :
    (([⟨"A", 0, 0, "v"⟩] : List Settlement).map Settlement.name).Nodup ∧
    ((build sqDist [] [⟨"A", 0, 0, "v"⟩]).visited.length
        + (build sqDist [] [⟨"A", 0, 0, "v"⟩]).unvisited.length
      = ([⟨"A", 0, 0, "v"⟩] : List Settlement).length ∧
    (∀ n, ¬(n ∈ (build sqDist [] [⟨"A", 0, 0, "v"⟩]).visited.map VisitedEntry.name ∧
            n ∈ (build sqDist [] [⟨"A", 0, 0, "v"⟩]).unvisited.map UnvisitedEntry.name)) ∧
    (∀ n, (n ∈ (build sqDist [] [⟨"A", 0, 0, "v"⟩]).visited.map VisitedEntry.name ∨
           n ∈ (build sqDist [] [⟨"A", 0, 0, "v"⟩]).unvisited.map UnvisitedEntry.name) ↔
          n ∈ ([⟨"A", 0, 0, "v"⟩] : List Settlement).map Settlement.name) ∧
    (build sqDist [] [⟨"A", 0, 0, "v"⟩]).statsVisited
        + (build sqDist [] [⟨"A", 0, 0, "v"⟩]).unvisited.length
      = (build sqDist [] [⟨"A", 0, 0, "v"⟩]).statsTotal) :=
  ⟨by decide, build_partition sqDist [] [⟨"A", 0, 0, "v"⟩] (by decide)⟩

/-- C2. `nearest_settlement` linear-scans the gazetteer tracking the minimum
distance and returns `(settlement, distance)` iff that minimum is
`≤ MATCH_RADIUS_KM` (boundary included): a returned settlement is a
gazetteer member at minimal distance, strictly closer than every settlement
before it in gazetteer order (so ties resolve to the first); a settlement
within radius guarantees a match; all settlements strictly beyond the radius
give no match; and a point at distance `0` from some settlement (with all
distances non-negative, as great-circle distances are) matches at distance
`0`. -/
theorem nearest_settlement_correct (distKm : ℚ × ℚ → ℚ × ℚ → ℚ) (coords : ℚ × ℚ)
    (gs : List Settlement) :
    (∀ b bd, nearest_settlement distKm coords gs = some (b, bd) →
      b ∈ gs ∧ bd = distKm coords b.coords ∧ bd ≤ MATCH_RADIUS_KM ∧
      (∀ s ∈ gs, bd ≤ distKm coords s.coords) ∧
      ∃ l₁ l₂, gs = l₁ ++ b :: l₂ ∧ ∀ s ∈ l₁, bd < distKm coords s.coords) ∧
    ((∃ s ∈ gs, distKm coords s.coords ≤ MATCH_RADIUS_KM) →
      ∃ b bd, nearest_settlement distKm coords gs = some (b, bd)) ∧
    ((∀ s ∈ gs, ¬distKm coords s.coords ≤ MATCH_RADIUS_KM) →
      nearest_settlement distKm coords gs = none) ∧
    (∀ s ∈ gs, distKm coords s.coords = 0 →
      (∀ t ∈ gs, 0 ≤ distKm coords t.coords) →
      ∃ b, nearest_settlement distKm coords gs = some (b, 0)) := by
  refine ⟨fun b bd h => nearest_settlement_eq_some distKm coords gs b bd h,
    fun ⟨s, hs, hle⟩ => nearest_settlement_isSome distKm coords gs s hs hle,
    nearest_settlement_eq_none distKm coords gs, ?_⟩
  intro s hs h0 hnn
  obtain ⟨b, bd, heq⟩ := nearest_settlement_isSome distKm coords gs s hs
    (by rw [h0]; norm_num [MATCH_RADIUS_KM])
  obtain ⟨hb, hbd, _, hmin, _⟩ := nearest_settlement_eq_some distKm coords gs b bd heq
  have h1 : bd ≤ 0 := h0 ▸ hmin s hs
  have h2 : 0 ≤ bd := hbd ▸ hnn b hb
  exact ⟨b, (le_antisymm h1 h2) ▸ heq⟩

/-- C2 witness: a point 50 km² (in the stand-in metric) away from the only
settlement matches nothing. -/
theorem nearest_settlement_correct_witness :
    nearest_settlement sqDist (0, 0) [⟨"A", 5, 5, "v"⟩] = none :=
  (nearest_settlement_correct sqDist (0, 0) [⟨"A", 5, 5, "v"⟩]).2.2.1 (by
    intro s hs
    rw [List.mem_singleton.1 hs]
    norm_num [sqDist, Settlement.coords, MATCH_RADIUS_KM])

/-- C3. `deduplicate` processes photos in input order; each photo is compared
against only the FIRST member of each existing cluster in cluster-creation
order, joins the first cluster whose first member is within `DEDUP_RADIUS_M`
and otherwise starts a new cluster; the output has exactly one representative
per cluster, in cluster-creation order; and two photos farther apart than the
radius are both retained. -/
theorem deduplicate_correct (distM : ℚ × ℚ → ℚ × ℚ → ℚ) (photos : List Photo)
    (p q : Photo) (cs₁ : List Cluster) (rep : Photo) (rest : List Photo)
    (cs₂ : List Cluster) :
    (clustersOf distM (photos ++ [p]) = insertPhoto distM p (clustersOf distM photos)) ∧
    ((∀ c ∈ clustersOf distM photos, ¬distM p.coords c.1.coords ≤ DEDUP_RADIUS_M) →
      clustersOf distM (photos ++ [p]) = clustersOf distM photos ++ [(p, [])]) ∧
    ((∀ c ∈ cs₁, ¬distM p.coords c.1.coords ≤ DEDUP_RADIUS_M) →
      distM p.coords rep.coords ≤ DEDUP_RADIUS_M →
      insertPhoto distM p (cs₁ ++ (rep, rest) :: cs₂)
        = cs₁ ++ (rep, rest ++ [p]) :: cs₂) ∧
    List.Forall₂ (fun r c => r ∈ Cluster.members c)
      (deduplicate distM photos) (clustersOf distM photos) ∧
    (DEDUP_RADIUS_M < distM q.coords p.coords →
      deduplicate distM [p, q] = [p, q]) := by
  refine ⟨clustersOf_append_one distM photos p, ?_,
    insertPhoto_first_fit distM p cs₁ rep rest cs₂,
    deduplicate_forall₂ distM photos, ?_⟩
  · intro h
    rw [clustersOf_append_one distM photos p, insertPhoto_no_fit distM p _ h]
  · intro h
    rw [deduplicate, clustersOf]
    simp only [List.foldl_cons, List.foldl_nil, insertPhoto]
    rw [if_neg (not_le.2 h)]
    simp only [insertPhoto, List.map_cons, List.map_nil, maxByDatetime, List.foldl_nil]

/-- C3 witness: two photos two units apart (stand-in metric) both survive
deduplication. -/
theorem deduplicate_correct_witness :
    DEDUP_RADIUS_M < sqDist (Photo.coords ⟨"q", 9, 0, 2⟩) (Photo.coords ⟨"p", 0, 0, 1⟩) ∧
    deduplicate sqDist [⟨"p", 0, 0, 1⟩, ⟨"q", 9, 0, 2⟩]
      = [⟨"p", 0, 0, 1⟩, ⟨"q", 9, 0, 2⟩] :=
  have h : DEDUP_RADIUS_M < sqDist (Photo.coords ⟨"q", 9, 0, 2⟩) (Photo.coords ⟨"p", 0, 0, 1⟩) := by
    norm_num [sqDist, Photo.coords, DEDUP_RADIUS_M]
  ⟨h, (deduplicate_correct sqDist [] ⟨"p", 0, 0, 1⟩ ⟨"q", 9, 0, 2⟩ [] ⟨"p", 0, 0, 1⟩ [] []).2.2.2.2 h⟩

/-- C4. The representative of a non-empty cluster is a member of maximal
capture timestamp, ties broken by encounter order (the first maximal member
wins); a member carrying the minimum-possible-timestamp sentinel (`0`,
standing for `datetime.min`) never beats a member with a known (non-sentinel)
timestamp; and every dedup output is the representative of one of the
clusters. -/
theorem cluster_representative_correct (distM : ℚ × ℚ → ℚ × ℚ → ℚ)
    (photos : List Photo) (first : Photo) (rest : List Photo) :
    maxByDatetime first rest ∈ first :: rest ∧
    (∀ x ∈ first :: rest, x.datetime ≤ (maxByDatetime first rest).datetime) ∧
    (∃ l₁ l₂, first :: rest = l₁ ++ maxByDatetime first rest :: l₂ ∧
      ∀ x ∈ l₁, x.datetime < (maxByDatetime first rest).datetime) ∧
    ((∃ x ∈ first :: rest, 0 < x.datetime) → 0 < (maxByDatetime first rest).datetime) ∧
    (∀ r ∈ deduplicate distM photos,
      ∃ c ∈ clustersOf distM photos, r = maxByDatetime c.1 c.2) := by
  obtain ⟨hmem, hall, hfirst⟩ := maxByDatetime_char first rest
  refine ⟨hmem, hall, hfirst, ?_, ?_⟩
  · rintro ⟨x, hx, h0⟩
    exact h0.trans_le (hall x hx)
  · intro r hr
    rw [deduplicate] at hr
    obtain ⟨c, hc, rfl⟩ := List.mem_map.1 hr
    exact ⟨c, hc, rfl⟩

/-- C4 witness: in a cluster whose first member carries the sentinel
timestamp, the later member with the known timestamp is chosen. -/
theorem cluster_representative_correct_witness :
    (∃ x ∈ [(⟨"p", 0, 0, 0⟩ : Photo), ⟨"q", 0, 0, 9⟩], 0 < x.datetime) ∧
    0 < (maxByDatetime ⟨"p", 0, 0, 0⟩ [⟨"q", 0, 0, 9⟩]).datetime :=
  have h : ∃ x ∈ [(⟨"p", 0, 0, 0⟩ : Photo), ⟨"q", 0, 0, 9⟩], 0 < x.datetime :=
    ⟨⟨"q", 0, 0, 9⟩, by simp, by norm_num⟩
  ⟨h, (cluster_representative_correct sqDist [] ⟨"p", 0, 0, 0⟩ [⟨"q", 0, 0, 9⟩]).2.2.2.1 h⟩

/-- C5. A settlement never receives a second `VisitedEntry`: when the
settlement matched for a photo is already claimed, the matching step leaves
the whole state unchanged (the photo is dropped and contributes nothing),
and in any build output the visited names are pairwise distinct, so only the
first-processed photo matching a settlement produces its entry. -/
theorem first_claim_wins (distKm : ℚ × ℚ → ℚ × ℚ → ℚ) (gs : List Settlement)
    (st : MatchState) (photo : Photo) (s : Settlement) (d : ℚ)
    (hmatch : nearest_settlement distKm photo.coords gs = some (s, d))
    (hclaimed : s.name ∈ st.visitedNames) :
    matchStep distKm gs st photo = st ∧
    ∀ photos, ((build distKm photos gs).visited.map VisitedEntry.name).Nodup := by
  refine ⟨matchStep_eq_dup distKm gs st photo s d hmatch hclaimed, ?_⟩
  intro photos
  obtain ⟨hmap, hnd, _⟩ := build_state_inv distKm gs photos
  rw [build_visited_eq, hmap]
  exact hnd

/-- C5 witness: a second photo matching the already-claimed settlement "A"
leaves the state untouched. -/
theorem first_claim_wins_witness :
    nearest_settlement sqDist (Photo.coords ⟨"p2", 0, 0, 7⟩) [⟨"A", 0, 0, "v"⟩]
        = some (⟨"A", 0, 0, "v"⟩, 0) ∧
    "A" ∈ ["A"] ∧
    (matchStep sqDist [⟨"A", 0, 0, "v"⟩]
        ⟨["A"], [⟨"A", 0, 0, "photos/p1.jpg", some 3⟩]⟩ ⟨"p2", 0, 0, 7⟩
      = ⟨["A"], [⟨"A", 0, 0, "photos/p1.jpg", some 3⟩]⟩ ∧
    ∀ photos,
      ((build sqDist photos [⟨"A", 0, 0, "v"⟩]).visited.map VisitedEntry.name).Nodup) := by
  have hm : nearest_settlement sqDist (Photo.coords ⟨"p2", 0, 0, 7⟩) [⟨"A", 0, 0, "v"⟩]
      = some (⟨"A", 0, 0, "v"⟩, 0) := by
    norm_num [nearest_settlement, scanStep, sqDist, Settlement.coords, Photo.coords,
      MATCH_RADIUS_KM]
  exact ⟨hm, by decide,
    first_claim_wins sqDist [⟨"A", 0, 0, "v"⟩]
      ⟨["A"], [⟨"A", 0, 0, "photos/p1.jpg", some 3⟩]⟩ ⟨"p2", 0, 0, 7⟩
      ⟨"A", 0, 0, "v"⟩ 0 hm (by decide)⟩

/-- C9. A fresh match appends a `VisitedEntry` carrying the PHOTO's
coordinates (so it differs from the settlement's gazetteer coordinates
whenever the photo is not exactly there), while every `UnvisitedEntry`
carries its settlement's gazetteer coordinates. -/
theorem visited_entry_coords (distKm : ℚ × ℚ → ℚ × ℚ → ℚ) (gs : List Settlement)
    (st : MatchState) (photo : Photo) (s : Settlement) (d : ℚ) (photos : List Photo)
    (hmatch : nearest_settlement distKm photo.coords gs = some (s, d))
    (hnew : s.name ∉ st.visitedNames) :
    (∃ e, (matchStep distKm gs st photo).visited = st.visited ++ [e] ∧
      e.name = s.name ∧ e.lat = photo.lat ∧ e.lon = photo.lon ∧
      (photo.coords ≠ s.coords → (e.lat, e.lon) ≠ s.coords)) ∧
    ∀ u ∈ (build distKm photos gs).unvisited,
      ∃ t, t ∈ gs ∧ u.name = t.name ∧ u.lat = t.lat ∧ u.lon = t.lon := by
  constructor
  · refine ⟨⟨s.name, photo.lat, photo.lon, "photos/" ++ photo.stem ++ ".jpg",
      if photo.datetime ≠ 0 then some photo.datetime else none⟩, ?_, rfl, rfl, rfl, ?_⟩
    · rw [matchStep_eq_new distKm gs st photo s d hmatch hnew]
    · intro hne
      exact hne
  · intro u hu
    rw [build_unvisited_eq] at hu
    obtain ⟨t, ht, _, rfl⟩ := (mem_buildUnvisited distKm _ gs u).1 hu
    exact ⟨t, ht, rfl, rfl, rfl⟩

/-- C9 witness: a photo at (2, 3), matching settlement "A" at (2, 2), yields
an entry at the photo's coordinates (2, 3), not the settlement's. -/
theorem visited_entry_coords_witness :
    nearest_settlement sqDist (Photo.coords ⟨"p1", 2, 3, 4⟩) [⟨"A", 2, 2, "v"⟩]
        = some (⟨"A", 2, 2, "v"⟩, 1) ∧
    "A" ∉ ([] : List String) ∧
    ((∃ e, (matchStep sqDist [⟨"A", 2, 2, "v"⟩] ⟨[], []⟩ ⟨"p1", 2, 3, 4⟩).visited
          = [] ++ [e] ∧
      e.name = "A" ∧ e.lat = 2 ∧ e.lon = 3 ∧
      (Photo.coords ⟨"p1", 2, 3, 4⟩ ≠ Settlement.coords ⟨"A", 2, 2, "v"⟩ →
        (e.lat, e.lon) ≠ Settlement.coords ⟨"A", 2, 2, "v"⟩)) ∧
    ∀ u ∈ (build sqDist [] [⟨"A", 2, 2, "v"⟩]).unvisited,
      ∃ t, t ∈ [(⟨"A", 2, 2, "v"⟩ : Settlement)] ∧ u.name = t.name ∧
        u.lat = t.lat ∧ u.lon = t.lon) := by
  have hm : nearest_settlement sqDist (Photo.coords ⟨"p1", 2, 3, 4⟩) [⟨"A", 2, 2, "v"⟩]
      = some (⟨"A", 2, 2, "v"⟩, 1) := by
    norm_num [nearest_settlement, scanStep, sqDist, Settlement.coords, Photo.coords,
      MATCH_RADIUS_KM]
  exact ⟨hm, by decide,
    visited_entry_coords sqDist [⟨"A", 2, 2, "v"⟩] ⟨[], []⟩ ⟨"p1", 2, 3, 4⟩
      ⟨"A", 2, 2, "v"⟩ 1 [] hm (by decide)⟩

/-- C6. DMS-to-decimal conversion returns `deg + min/60 + sec/3600`, negated
exactly for references "S" and "W"; for non-negative components the result is
`≤ 0` for South/West and `≥ 0` otherwise; and the documented fixture
52°14'07.8"N, 0°54'05.0"E converts to (52.2355, 0.9014) within 1e-4. -/
theorem dms_to_decimal_correct (d m s : ℚ) (ref : String) :
    ((ref = "S" ∨ ref = "W") → dms_to_decimal d m s ref = -(d + m / 60 + s / 3600)) ∧
    (¬(ref = "S" ∨ ref = "W") → dms_to_decimal d m s ref = d + m / 60 + s / 3600) ∧
    (0 ≤ d → 0 ≤ m → 0 ≤ s →
      ((ref = "S" ∨ ref = "W") → dms_to_decimal d m s ref ≤ 0) ∧
      (¬(ref = "S" ∨ ref = "W") → 0 ≤ dms_to_decimal d m s ref)) ∧
    |dms_to_decimal 52 14 (39 / 5) "N" - 104471 / 2000| ≤ 1 / 10000 ∧
    |dms_to_decimal 0 54 5 "E" - 4507 / 5000| ≤ 1 / 10000 := by
  have hval : ∀ href : ¬(ref = "S" ∨ ref = "W"),
      dms_to_decimal d m s ref = d + m / 60 + s / 3600 := by
    intro href
    rw [dms_to_decimal, if_neg href]
  have hvalneg : ∀ href : ref = "S" ∨ ref = "W",
      dms_to_decimal d m s ref = -(d + m / 60 + s / 3600) := by
    intro href
    rw [dms_to_decimal, if_pos href]
  have hnn : 0 ≤ d → 0 ≤ m → 0 ≤ s → 0 ≤ d + m / 60 + s / 3600 := fun hd hm hs =>
    add_nonneg (add_nonneg hd (div_nonneg hm (by norm_num))) (div_nonneg hs (by norm_num))
  refine ⟨hvalneg, hval, fun hd hm hs => ⟨?_, ?_⟩, ?_, ?_⟩
  · intro href
    rw [hvalneg href]
    exact neg_nonpos.2 (hnn hd hm hs)
  · intro href
    rw [hval href]
    exact hnn hd hm hs
  · have h : ¬("N" = "S" ∨ "N" = "W") := by decide
    simp only [dms_to_decimal, if_neg h]
    norm_num
  · have h : ¬("E" = "S" ∨ "E" = "W") := by decide
    simp only [dms_to_decimal, if_neg h]
    norm_num [abs_le]

/-- C6 witness: the conversion applied to 10°30'0.0"S is −10.5. -/
theorem dms_to_decimal_correct_witness :
    ((("S" : String) = "S" ∨ ("S" : String) = "W") →
      dms_to_decimal 10 30 0 "S" = -(10 + 30 / 60 + 0 / 3600)) ∧
    dms_to_decimal 10 30 0 "S" = -(10 + 30 / 60 + 0 / 3600) :=
  ⟨(dms_to_decimal_correct 10 30 0 "S").1,
   (dms_to_decimal_correct 10 30 0 "S").1 (Or.inl rfl)⟩

/-- C7. A rational EXIF value `(num, den)` converts to `num/den`, except
that a zero denominator yields `0` instead of a division error; the
conversion is total (never raises). -/
theorem to_float_correct (num den : ℤ) :
    (den = 0 → to_float num den = 0) ∧
    (den ≠ 0 → to_float num den = (num : ℚ) / (den : ℚ) ∧
      to_float num den * (den : ℚ) = (num : ℚ)) := by
  constructor
  · intro h
    rw [to_float, if_neg (not_not_intro h)]
  · intro h
    rw [to_float, if_pos h]
    exact ⟨rfl, div_mul_cancel₀ (num : ℚ) (Int.cast_ne_zero.2 h)⟩

/-- C7 witness: `(7, 0)` converts to `0`, and `(6, 3)` converts to the exact
quotient `2`. -/
theorem to_float_correct_witness :
    to_float 7 0 = 0 ∧ to_float 6 3 * ((3 : ℤ) : ℚ) = ((6 : ℤ) : ℚ) :=
  ⟨(to_float_correct 7 0).1 rfl, ((to_float_correct 6 3).2 (by norm_num)).2⟩

/-- C8. The rows of the unvisited CSV are sorted non-decreasing in the
distance-from-home value, where each such value is the distance from
`HOME_COORDS` rounded to one decimal place. -/
theorem unvisited_csv_sorted (distKm : ℚ × ℚ → ℚ × ℚ → ℚ) (photos : List Photo)
    (gs : List Settlement) :
    (sortedUnvisited (build distKm photos gs)).Pairwise
      (fun a b => a.distance_km ≤ b.distance_km) ∧
    ∀ u ∈ sortedUnvisited (build distKm photos gs),
      ∃ s, s ∈ gs ∧ u.name = s.name ∧
        u.distance_km = round1 (distKm HOME_COORDS s.coords) := by
  constructor
  · have htrans : ∀ a b c : UnvisitedEntry,
        decide (a.distance_km ≤ b.distance_km) →
        decide (b.distance_km ≤ c.distance_km) →
        decide (a.distance_km ≤ c.distance_km) := by
      intro a b c hab hbc
      simp only [decide_eq_true_eq] at *
      exact le_trans hab hbc
    have htotal : ∀ a b : UnvisitedEntry,
        (decide (a.distance_km ≤ b.distance_km)
          || decide (b.distance_km ≤ a.distance_km)) = true := by
      intro a b
      simp only [Bool.or_eq_true, decide_eq_true_eq]
      exact le_total _ _
    have h := List.sorted_mergeSort htrans htotal (build distKm photos gs).unvisited
    exact h.imp fun hab => of_decide_eq_true hab
  · intro u hu
    rw [sortedUnvisited] at hu
    have hu' : u ∈ (build distKm photos gs).unvisited :=
      (List.mergeSort_perm _ _).mem_iff.1 hu
    rw [build_unvisited_eq] at hu'
    obtain ⟨s, hs, _, rfl⟩ := (mem_buildUnvisited distKm _ gs u).1 hu'
    exact ⟨s, hs, rfl, rfl⟩

/-- C8 witness: the CSV ordering statement at a concrete build. -/
theorem unvisited_csv_sorted_witness :
    (sortedUnvisited (build sqDist [] [⟨"B", 1, 1, "v"⟩, ⟨"C", 0, 0, "v"⟩])).Pairwise
      (fun a b => a.distance_km ≤ b.distance_km) :=
  (unvisited_csv_sorted sqDist [] [⟨"B", 1, 1, "v"⟩, ⟨"C", 0, 0, "v"⟩]).1

/-- C10. On an empty gazetteer `nearest_settlement` returns no match rather
than raising: the running minimum (modelled by the `none` accumulator,
standing for `float("inf")`) never passes the radius test. -/
theorem nearest_settlement_empty (distKm : ℚ × ℚ → ℚ × ℚ → ℚ) (coords : ℚ × ℚ) :
    nearest_settlement distKm coords [] = none := rfl

/-- C10 witness: the empty-gazetteer statement at a concrete point. -/
theorem nearest_settlement_empty_witness :
    nearest_settlement sqDist (3, 4) [] = none :=
  nearest_settlement_empty sqDist (3, 4)

end VillageSigns
